import Mathlib

/-!
Shallow embedding of the day-trade-assistant indicator engine.

Numbers: Python floats are modelled as exact rationals (ℚ).  `round(x, d)`
is modelled as round-half-up on exact rationals (`roundTo`); no claim in
this development depends on tie behaviour of the rounding.

Dates: ISO date strings (whose lexicographic order is chronological) are
modelled as natural numbers; for the gap detector a date `d` has weekday
`d % 7` with day 0 a Monday, so `d % 7 < 5` is the source's
`date.weekday() < 5` test.

The source functions receive bar lists documented as "sorted by date
ascending" and re-sort them with a stable sort, which is the identity on
such input; the embedding takes the lists as given.
-/

/-- Python `round(x, d)` on exact rationals (round half up). -/
def roundTo (d : ℕ) (q : ℚ) : ℚ :=
  ((Int.floor (q * 10 ^ d + 1 / 2) : ℤ) : ℚ) / 10 ^ d

/-- pandas `.tail(n)` / Python `prices[-n:]`: the last `n` elements. -/
def lastN (n : ℕ) (l : List α) : List α :=
  l.drop (l.length - n)

/-- One OHLCV bar (src/data/models.py `MarketData`): date plus prices. -/
structure Bar where
  date : ℕ
  open_ : ℚ
  high : ℚ
  low : ℚ
  close : ℚ
  volume : ℚ
deriving DecidableEq

/-- The dictionary returned by `calculate_real_relative_strength_daily`. -/
structure RrsResult where
  rrs_1_day : Option ℚ
  rrs_3_day : Option ℚ
  rrs_8_day : Option ℚ
  rrs_15_day : Option ℚ
deriving DecidableEq

/-- The indicator record assembled by `calculate_all_indicators`. -/
structure IndicatorRecord where
  sma_200 : Option ℚ
  sma_100 : Option ℚ
  sma_50 : Option ℚ
  ema_15 : Option ℚ
  ema_8 : Option ℚ
  rrs_1_day : Option ℚ
  rrs_3_day : Option ℚ
  rrs_8_day : Option ℚ
  rrs_15_day : Option ℚ
deriving DecidableEq

/-- `_get_empty_indicators` (technical_analysis.py): the all-null record. -/
def empty_indicators : IndicatorRecord :=
  ⟨none, none, none, none, none, none, none, none, none⟩

/-- `calculate_sma` (technical_analysis.py, lines 20-35). -/
def calculate_sma (prices : List ℚ) (period : ℕ) : Option ℚ :=
  if prices.length < period then none
  else
    let recent_prices := lastN period prices
    some (roundTo 2 (recent_prices.sum / (recent_prices.length : ℚ)))

/-- `calculate_ema` (technical_analysis.py, lines 38-61): seeded with the
first price of the whole series, then one smoothing step per later price.
(On an empty list the source would fault indexing `prices[0]`; that case is
unreachable for a positive period, which the first guard then rejects.) -/
def calculate_ema (prices : List ℚ) (period : ℕ) : Option ℚ :=
  if prices.length < period then none
  else
    match prices with
    | [] => none
    | p :: rest =>
      let alpha : ℚ := 2 / ((period : ℚ) + 1)
      some (roundTo 2 (rest.foldl (fun ema price => alpha * price + (1 - alpha) * ema) p))

/-- The close column of a bar list. -/
def closes (l : List Bar) : List ℚ :=
  l.map Bar.close

/-- pandas `close.shift(1)`: previous close per row, NaN on the first row. -/
def prevCloses (l : List Bar) : List (Option ℚ) :=
  none :: ((closes l).dropLast.map some)

/-- One row of the True-Range frame: the rowwise NaN-skipping max of
`high - low`, `abs(high - prev_close)`, `abs(low - prev_close)`. -/
def trOf (b : Bar) (pc : Option ℚ) : ℚ :=
  match pc with
  | none => b.high - b.low
  | some c => max (b.high - b.low) (max |b.high - c| |b.low - c|)

/-- `calculate_true_range` (real_relative_strength.py, lines 153-176). -/
def calculate_true_range (data : List Bar) : List ℚ :=
  (data.zip (prevCloses data)).map fun bp => trOf bp.1 bp.2

/-- `calculate_wilders_average` (real_relative_strength.py, lines 179-206;
an identical copy is `_calculate_wilders_average` in technical_analysis.py).
NaN entries are `none`; `dropna` is `filterMap id`. -/
def calculate_wilders_average (data : List (Option ℚ)) (period : ℕ) : Option ℚ :=
  if data.length < period ∨ data.all (fun x => x.isNone) then none
  else
    let clean_data := data.filterMap id
    if clean_data.length < period then none
    else
      let alpha : ℚ := 1 / (period : ℚ)
      let initial_avg := (clean_data.take period).sum / ((clean_data.take period).length : ℚ)
      some ((clean_data.drop period).foldl
        (fun result v => alpha * v + (1 - alpha) * result) initial_avg)

/-- `close.iloc[-1] - close.iloc[-(period+1)]`: the rolling move. -/
def rollingMove (l : List Bar) (period : ℕ) : ℚ :=
  (closes l).getD (l.length - 1) 0 - (closes l).getD (l.length - (period + 1)) 0

/-- The shared tail of both per-period RRS functions once the two ATRs are
in hand: the null/zero guard and the ThinkScript formula, rounded to 4. -/
def rrs_formula (symbol_data spy_data : List Bar) (period : ℕ)
    (symbol_atr spy_atr : Option ℚ) : Option ℚ :=
  match symbol_atr, spy_atr with
  | some sa, some pa =>
    if pa = 0 ∨ sa = 0 then none
    else some (roundTo 4 ((rollingMove symbol_data period - (rollingMove spy_data period / pa) * sa) / sa))
  | _, _ => none

namespace RealRelativeStrength

/-- `calculate_rrs_for_period` (real_relative_strength.py, lines 115-150):
fixed 14-day ATR window, minimum `max(period+1, 15)` observations. -/
def calculate_rrs_for_period (symbol_data spy_data : List Bar) (period : ℕ) : Option ℚ :=
  let atr_period := 14
  let min_required_days := max (period + 1) (atr_period + 1)
  if symbol_data.length < min_required_days ∨ spy_data.length < min_required_days then none
  else
    let symbol_atr := calculate_wilders_average ((calculate_true_range symbol_data).map some) atr_period
    let spy_atr := calculate_wilders_average ((calculate_true_range spy_data).map some) atr_period
    rrs_formula symbol_data spy_data period symbol_atr spy_atr

/-- The guard-and-align prefix of `calculate_real_relative_strength_daily`
(real_relative_strength.py, lines 34-96): returns the pair of series handed
to the per-period calculation, or `none` when the function falls back to
the all-null dictionary.  Mirrors the source in order: empty-input guards,
exact target-date lookup, slice to the target, 20-row guards on the slice
and on the benchmark rows whose date occurs in the slice, then trailing
`min_length` rows of each side. -/
def alignRrsInputs (market_data spy_data : List Bar) (target_date : ℕ) :
    Option (List Bar × List Bar) :=
  if market_data = [] ∨ spy_data = [] then none
  else
    match market_data.findIdx? (fun b => b.date = target_date) with
    | none => none
    | some target_index =>
      let symbol_data := market_data.take (target_index + 1)
      if symbol_data.length < 20 then none
      else
        let spy_aligned := spy_data.filter fun b => symbol_data.any fun s => s.date = b.date
        if spy_aligned.length < 20 then none
        else
          let min_length := min spy_aligned.length symbol_data.length
          if min_length < 20 then none
          else some (lastN min_length symbol_data, lastN min_length spy_aligned)

/-- `calculate_real_relative_strength_daily` (real_relative_strength.py,
lines 17-100): align, then compute the four periods 1, 3, 8, 15. -/
def calculate_real_relative_strength_daily (market_data spy_data : List Bar)
    (target_date : ℕ) : RrsResult :=
  match alignRrsInputs market_data spy_data target_date with
  | none => ⟨none, none, none, none⟩
  | some (symbolD, spyD) =>
    ⟨calculate_rrs_for_period symbolD spyD 1,
     calculate_rrs_for_period symbolD spyD 3,
     calculate_rrs_for_period symbolD spyD 8,
     calculate_rrs_for_period symbolD spyD 15⟩

end RealRelativeStrength

namespace TechnicalAnalysis

/-- `_calculate_rrs_for_period` (technical_analysis.py, lines 170-201):
same formula, but the minimum is only `period + 1` observations and the
Wilder window handed to the ATR is `period` itself, not 14. -/
def calculate_rrs_for_period (symbol_data spy_data : List Bar) (period : ℕ) : Option ℚ :=
  if symbol_data.length < period + 1 ∨ spy_data.length < period + 1 then none
  else
    let symbol_atr := calculate_wilders_average ((calculate_true_range symbol_data).map some) period
    let spy_atr := calculate_wilders_average ((calculate_true_range spy_data).map some) period
    rrs_formula symbol_data spy_data period symbol_atr spy_atr

/-- `calculate_all_indicators` (technical_analysis.py, lines 259-323), the
indicator orchestrator, with the benchmark series dependency-injected as an
argument (spec §4.7/§9) and the relative-strength fields produced by the
relative-strength module's `calculate_real_relative_strength_daily`
(real_relative_strength.py, lines 17-100) on the same subject series and
target date.  Absent target date (or empty input) yields the all-null
record; otherwise each moving average is computed from the closes of the
slice up to and including the target date. -/
def calculate_all_indicators (market_data spy_data : List Bar) (target_date : ℕ) :
    IndicatorRecord :=
  if market_data = [] then empty_indicators
  else
    match market_data.findIdx? (fun b => b.date = target_date) with
    | none => empty_indicators
    | some target_index =>
      let prices_up_to_target := closes (market_data.take (target_index + 1))
      let rrs := RealRelativeStrength.calculate_real_relative_strength_daily
        market_data spy_data target_date
      { sma_200 := calculate_sma prices_up_to_target 200
        sma_100 := calculate_sma prices_up_to_target 100
        sma_50 := calculate_sma prices_up_to_target 50
        ema_15 := calculate_ema prices_up_to_target 15
        ema_8 := calculate_ema prices_up_to_target 8
        rrs_1_day := rrs.rrs_1_day
        rrs_3_day := rrs.rrs_3_day
        rrs_8_day := rrs.rrs_8_day
        rrs_15_day := rrs.rrs_15_day }

end TechnicalAnalysis

namespace Tools

/-- The trading-day enumeration of `update_market_data` (tools.py, lines
52-59): every date in `[start_date, end_date]` whose weekday is Mon-Fri. -/
def trading_days (start_date end_date : ℕ) : List ℕ :=
  (List.range' start_date (end_date + 1 - start_date)).filter fun d => decide (d % 7 < 5)

/-- The gap detector of `update_market_data` (tools.py, lines 61-63):
trading days of the range that are not among the stored dates. -/
def missing_dates (start_date end_date : ℕ) (existing : List ℕ) : List ℕ :=
  (trading_days start_date end_date).filter fun d => decide (d ∉ existing)

/-- `any(value is not None for value in indicators.values())`
(tools.py, line 326). -/
def any_indicator_present (r : IndicatorRecord) : Bool :=
  r.sma_200.isSome || r.sma_100.isSome || r.sma_50.isSome || r.ema_15.isSome ||
  r.ema_8.isSome || r.rrs_1_day.isSome || r.rrs_3_day.isSome || r.rrs_8_day.isSome ||
  r.rrs_15_day.isSome

/-- One (symbol, date) step of `update_technical_indicators` (tools.py,
lines 303-335): skip if indicators already exist, skip if fewer than 200
bars (`validate_data_sufficiency`), compute, and insert only when at least
one indicator value is non-null.  Returns the record inserted, if any. -/
def update_step (existing : Bool) (market_data spy_data : List Bar) (calc_date : ℕ) :
    Option IndicatorRecord :=
  if existing then none
  else if market_data.length < 200 then none
  else
    let indicators := TechnicalAnalysis.calculate_all_indicators market_data spy_data calc_date
    if any_indicator_present indicators then some indicators else none

end Tools

/-- Spec-side EMA recurrence: apply `ema = α·price + (1-α)·ema` once per
element, in order, starting from the seed. -/
def emaIter (alpha : ℚ) : ℚ → List ℚ → ℚ
  | acc, [] => acc
  | acc, price :: rest => emaIter alpha (alpha * price + (1 - alpha) * acc) rest

/-- Spec-side Wilder recurrence: `result = (1/period)·v + (1-1/period)·result`
once per element, in order, starting from the seed. -/
def wilderIter (period : ℕ) : ℚ → List ℚ → ℚ
  | acc, [] => acc
  | acc, v :: rest => wilderIter period ((1 / (period : ℚ)) * v + (1 - 1 / (period : ℚ)) * acc) rest

/-! ### Helper lemmas -/

theorem emaIter_eq_foldl (a : ℚ) (l : List ℚ) (acc : ℚ) :
    emaIter a acc l = l.foldl (fun ema price => a * price + (1 - a) * ema) acc := by
  induction l generalizing acc with
  | nil => rfl
  | cons x xs ih => simp [emaIter, ih]

theorem wilderIter_eq_foldl (period : ℕ) (l : List ℚ) (acc : ℚ) :
    wilderIter period acc l =
      l.foldl (fun result v => (1 / (period : ℚ)) * v + (1 - 1 / (period : ℚ)) * result) acc := by
  induction l generalizing acc with
  | nil => rfl
  | cons x xs ih => simp [wilderIter, ih]

theorem length_lastN {α : Type} (n : ℕ) (l : List α) (h : n ≤ l.length) :
    (lastN n l).length = n := by
  simp [lastN]
  omega

/-- Claim C5: for every price list and positive period, `calculate_ema`
returns null exactly when the list is shorter than the period; otherwise it
seeds the accumulator with the first element of the whole series and applies
`ema = α·price + (1-α)·ema` with `α = 2/(period+1)` once per subsequent
element in order, rounding the final value to 2 decimal places. -/
theorem C5_ema_spec (prices : List ℚ) (period : ℕ) (hp : 0 < period) :
    (calculate_ema prices period = none ↔ prices.length < period) ∧
    (∀ p rest, prices = p :: rest → period ≤ prices.length →
      calculate_ema prices period =
        some (roundTo 2 (emaIter (2 / ((period : ℚ) + 1)) p rest))) := by
  constructor
  · cases prices with
    | nil =>
      simp [calculate_ema]
      omega
    | cons p rest =>
      by_cases h : (p :: rest).length < period <;> simp [calculate_ema, h]
  · intro p rest hpr hlen
    subst hpr
    rw [emaIter_eq_foldl]
    simp only [calculate_ema, if_neg (by omega : ¬(p :: rest).length < period)]

/-- Witness for C5 at a concrete input. -/
theorem C5_ema_witness :
    calculate_ema [1, 2] 2 = some (roundTo 2 (emaIter (2 / (((2 : ℕ) : ℚ) + 1)) 1 [2])) :=
  (C5_ema_spec [1, 2] 2 (by decide)).2 1 [2] rfl (by decide)

/-- Claim C6: for every price list and positive period,
`calculate_sma` is null iff the list is shorter than the period; otherwise
it is the arithmetic mean of the last `period` elements, rounded to 2
decimal places. -/
theorem C6_sma_spec (prices : List ℚ) (period : ℕ) (hp : 0 < period) :
    (calculate_sma prices period = none ↔ prices.length < period) ∧
    (period ≤ prices.length →
      calculate_sma prices period =
        some (roundTo 2 ((lastN period prices).sum / (period : ℚ)))) := by
  constructor
  · by_cases h : prices.length < period <;> simp [calculate_sma, h]
  · intro hlen
    simp only [calculate_sma, if_neg (by omega : ¬prices.length < period)]
    rw [length_lastN period prices hlen]

/-- Witness for C6 at a concrete input. -/
theorem C6_sma_witness :
    calculate_sma [1, 2, 3, 4] 3 = some (roundTo 2 ((lastN 3 [1, 2, 3, 4]).sum / (3 : ℚ))) :=
  (C6_sma_spec [1, 2, 3, 4] 3 (by decide)).2 (by decide)

/-- Claim C7: for every series with possible nulls and every positive
period, `calculate_wilders_average` drops the nulls first, returns null when
fewer than `period` clean values remain, and otherwise seeds with the mean
of the first `period` clean values and applies the Wilder recurrence to each
later clean value in order; with exactly `period` clean values the result is
their simple mean. -/
theorem C7_wilders_spec (data : List (Option ℚ)) (period : ℕ) (hp : 0 < period) :
    (calculate_wilders_average data period = none ↔ (data.filterMap id).length < period) ∧
    ((data.filterMap id).length = period →
      calculate_wilders_average data period = some ((data.filterMap id).sum / (period : ℚ))) ∧
    (period ≤ (data.filterMap id).length →
      calculate_wilders_average data period =
        some (wilderIter period (((data.filterMap id).take period).sum / (period : ℚ))
          ((data.filterMap id).drop period))) := by
  have hclean_le : (data.filterMap id).length ≤ data.length := List.length_filterMap_le id data
  have hall : data.all (fun x => x.isNone) = true → (data.filterMap id).length < period := by
    intro h
    have : data.filterMap id = [] := by
      rw [List.filterMap_eq_nil_iff]
      intro a ha
      have := List.all_eq_true.mp h a ha
      simpa [Option.isNone_iff_eq_none] using this
    rw [this]
    simpa using hp
  have key : period ≤ (data.filterMap id).length →
      calculate_wilders_average data period =
        some (wilderIter period (((data.filterMap id).take period).sum / (period : ℚ))
          ((data.filterMap id).drop period)) := by
    intro hlen
    have h1 : ¬(data.length < period ∨ data.all (fun x => x.isNone) = true) := by
      push_neg
      refine ⟨by omega, ?_⟩
      intro hcon
      exact absurd (hall hcon) (by omega)
    have htake : ((data.filterMap id).take period).length = period := by
      rw [List.length_take]
      omega
    rw [wilderIter_eq_foldl]
    simp only [calculate_wilders_average, if_neg h1,
      if_neg (by omega : ¬(data.filterMap id).length < period), htake]
  refine ⟨?_, ?_, key⟩
  · constructor
    · intro h
      by_contra hlen
      rw [key (by omega)] at h
      exact Option.noConfusion h
    · intro h
      by_cases h1 : data.length < period ∨ data.all (fun x => x.isNone) = true
      · simp only [calculate_wilders_average, if_pos h1]
      · simp only [calculate_wilders_average, if_neg h1, if_pos h]
  · intro h
    rw [key (by omega)]
    rw [List.take_of_length_le (by omega), List.drop_eq_nil_of_le (by omega)]
    rfl

/-- Witness for C7 at a concrete input with an embedded null. -/
theorem C7_wilders_witness :
    calculate_wilders_average [some 1, none, some 3] 2 =
      some ((([some 1, none, some 3] : List (Option ℚ)).filterMap id).sum / (2 : ℚ)) :=
  (C7_wilders_spec [some 1, none, some 3] 2 (by decide)).2.1 (by decide)

/-- A default bar, used only as the out-of-range default of `List.getD`. -/
def arbBar : Bar := ⟨0, 0, 0, 0, 0, 0⟩

theorem length_tr (l : List Bar) : (calculate_true_range l).length = l.length := by
  cases l with
  | nil => rfl
  | cons b rest =>
    simp [calculate_true_range, prevCloses, closes, List.length_dropLast]

theorem trueRange_getD (l : List Bar) (i : ℕ) (hi : i < l.length) :
    (calculate_true_range l).getD i 0 = trOf (l.getD i arbBar) ((prevCloses l).getD i none) := by
  have hlen : (calculate_true_range l).length = l.length := length_tr l
  have hzip : (l.zip (prevCloses l)).length = l.length := by
    simpa [calculate_true_range] using hlen
  have hpc : i < (prevCloses l).length := by
    rw [List.length_zip] at hzip
    omega
  rw [List.getD_eq_getElem _ _ (by omega : i < (calculate_true_range l).length),
    List.getD_eq_getElem _ _ hi, List.getD_eq_getElem _ _ hpc]
  simp only [calculate_true_range, List.getElem_map, List.getElem_zip]

theorem prevCloses_getD_succ (l : List Bar) (i : ℕ) (hi : i + 1 < l.length) :
    (prevCloses l).getD (i + 1) none = some ((l.getD i arbBar).close) := by
  have h1 : i < (closes l).dropLast.length := by
    simp [closes, List.length_dropLast]
    omega
  show (none :: ((closes l).dropLast.map some)).getD (i + 1) none = _
  rw [List.getD_cons_succ]
  rw [List.getD_eq_getElem _ _ (by simpa using h1)]
  rw [List.getElem_map, List.getElem_dropLast]
  rw [List.getD_eq_getElem _ _ (by omega : i < l.length)]
  simp [closes]

/-- Claim C8: for every bar list, `calculate_true_range` yields one value
per bar; the first equals `high - low` of the first bar, and every later
value at index `i` equals
`max(high_i - low_i, |high_i - close_(i-1)|, |low_i - close_(i-1)|)`. -/
theorem C8_true_range_spec (l : List Bar) :
    (calculate_true_range l).length = l.length ∧
    (l ≠ [] → (calculate_true_range l).getD 0 0 =
      (l.getD 0 arbBar).high - (l.getD 0 arbBar).low) ∧
    (∀ i, 0 < i → i < l.length →
      (calculate_true_range l).getD i 0 =
        max ((l.getD i arbBar).high - (l.getD i arbBar).low)
          (max |(l.getD i arbBar).high - (l.getD (i - 1) arbBar).close|
               |(l.getD i arbBar).low - (l.getD (i - 1) arbBar).close|)) := by
  refine ⟨length_tr l, ?_, ?_⟩
  · intro hne
    have h0 : 0 < l.length := List.length_pos.mpr hne
    rw [trueRange_getD l 0 h0]
    rfl
  · intro i h0 hi
    obtain ⟨j, rfl⟩ : ∃ j, i = j + 1 := ⟨i - 1, by omega⟩
    rw [trueRange_getD l (j + 1) hi, prevCloses_getD_succ l j hi]
    simp [trOf]

/-- Witness for C8 at a concrete two-bar list. -/
theorem C8_true_range_witness :
    (calculate_true_range [⟨0, 1, 3, 1, 2, 5⟩, ⟨1, 2, 6, 2, 5, 5⟩]).getD 1 0 =
      max ((([⟨0, 1, 3, 1, 2, 5⟩, ⟨1, 2, 6, 2, 5, 5⟩] : List Bar).getD 1 arbBar).high -
            (([⟨0, 1, 3, 1, 2, 5⟩, ⟨1, 2, 6, 2, 5, 5⟩] : List Bar).getD 1 arbBar).low)
        (max |(([⟨0, 1, 3, 1, 2, 5⟩, ⟨1, 2, 6, 2, 5, 5⟩] : List Bar).getD 1 arbBar).high -
              (([⟨0, 1, 3, 1, 2, 5⟩, ⟨1, 2, 6, 2, 5, 5⟩] : List Bar).getD 0 arbBar).close|
             |(([⟨0, 1, 3, 1, 2, 5⟩, ⟨1, 2, 6, 2, 5, 5⟩] : List Bar).getD 1 arbBar).low -
              (([⟨0, 1, 3, 1, 2, 5⟩, ⟨1, 2, 6, 2, 5, 5⟩] : List Bar).getD 0 arbBar).close|) :=
  (C8_true_range_spec [⟨0, 1, 3, 1, 2, 5⟩, ⟨1, 2, 6, 2, 5, 5⟩]).2.2 1 (by decide) (by decide)

/-- Claim C9: the gap detector's missing-date list is the set difference of
the weekday dates in `[start, end]` minus the stored dates, in ascending
order; it is empty iff every weekday of the range is stored, it never
contains a weekend day (`d % 7` is 5 or 6), and with nothing stored its
length is exactly the number of weekdays in the range. -/
theorem C9_gap_spec (start_date end_date : ℕ) (existing : List ℕ) :
    (∀ d, d ∈ Tools.missing_dates start_date end_date existing ↔
      (start_date ≤ d ∧ d ≤ end_date ∧ d % 7 < 5 ∧ d ∉ existing)) ∧
    (Tools.missing_dates start_date end_date existing).Pairwise (· < ·) ∧
    (Tools.missing_dates start_date end_date existing = [] ↔
      ∀ d, start_date ≤ d → d ≤ end_date → d % 7 < 5 → d ∈ existing) ∧
    (∀ d, d ∈ Tools.missing_dates start_date end_date existing → d % 7 ≠ 5 ∧ d % 7 ≠ 6) ∧
    (Tools.missing_dates start_date end_date []).length =
      (Tools.trading_days start_date end_date).length := by
  have hmem : ∀ d, d ∈ Tools.missing_dates start_date end_date existing ↔
      (start_date ≤ d ∧ d ≤ end_date ∧ d % 7 < 5 ∧ d ∉ existing) := by
    intro d
    simp only [Tools.missing_dates, Tools.trading_days, List.mem_filter,
      List.mem_range'_1, decide_eq_true_eq]
    constructor
    · rintro ⟨⟨⟨h1, h2⟩, h3⟩, h4⟩
      exact ⟨h1, by omega, h3, h4⟩
    · rintro ⟨h1, h2, h3, h4⟩
      exact ⟨⟨⟨h1, by omega⟩, h3⟩, h4⟩
  refine ⟨hmem, ?_, ?_, ?_, ?_⟩
  · exact ((List.pairwise_lt_range' start_date _ 1).filter _).filter _
  · constructor
    · intro he d h1 h2 h3
      by_contra h4
      have hd := (hmem d).mpr ⟨h1, h2, h3, h4⟩
      rw [he] at hd
      exact absurd hd (List.not_mem_nil d)
    · intro hall
      rw [List.eq_nil_iff_forall_not_mem]
      intro d hd
      obtain ⟨h1, h2, h3, h4⟩ := (hmem d).mp hd
      exact h4 (hall d h1 h2 h3)
  · intro d hd
    obtain ⟨-, -, h3, -⟩ := (hmem d).mp hd
    omega
  · have : Tools.missing_dates start_date end_date [] =
        Tools.trading_days start_date end_date := by
      apply List.filter_eq_self.mpr
      intro a _
      simp
    rw [this]

/-- Witness for C9 at a concrete range and store. -/
theorem C9_gap_witness :
    7 ∈ Tools.missing_dates 0 13 [0, 1] ∧ 7 % 7 ≠ 5 ∧ 7 % 7 ≠ 6 :=
  ⟨by decide, (C9_gap_spec 0 13 [0, 1]).2.2.2.1 7 (by decide)⟩

/-- Ten bars of constant 2-point range (true range 2 on every bar). -/
def barsTen : List Bar := (List.range 10).map fun i => ⟨i, 10, 11, 9, 10, 0⟩

/-- Twelve bars of constant 2-point range. -/
def barsTwelve : List Bar := (List.range 12).map fun i => ⟨i, 10, 11, 9, 10, 0⟩

/-- Twenty flat bars (zero-volatility OHLC, so the ATR is zero). -/
def flatBars20 : List Bar := (List.range 20).map fun i => ⟨i, 5, 5, 5, 5, 0⟩

/-- Counterexample to claim C1 as stated: the per-period relative-strength
variant in technical_analysis.py returns a value on a 10-bar pair for
P = 8 although no 14-day Wilder ATR exists for those series (their
true-range series has fewer than 14 entries), so its smoothing window is
not the fixed 14 — it is P itself. -/
theorem C1_counterexample :
    TechnicalAnalysis.calculate_rrs_for_period barsTen barsTen 8 ≠ none ∧
    calculate_wilders_average ((calculate_true_range barsTen).map some) 14 = none := by
  constructor
  · have hat : calculate_wilders_average ((calculate_true_range barsTen).map some) 8 =
        some 2 := by
      have htr : calculate_true_range barsTen = [2, 2, 2, 2, 2, 2, 2, 2, 2, 2] := by
        norm_num [barsTen, calculate_true_range, prevCloses, closes, trOf,
          List.range_succ, abs, max_def]
      rw [htr]
      norm_num [calculate_wilders_average, List.filterMap_cons]
    simp only [TechnicalAnalysis.calculate_rrs_for_period, hat, rrs_formula]
    norm_num [barsTen]
    exact Option.some_ne_none _
  · decide

/-- Claim C1 (amended): the relative-strength module's calculator
(`calculate_rrs_for_period` in real_relative_strength.py) hands both
series' true ranges to a Wilder average whose window is the fixed 14 for
every requested period; the variant `_calculate_rrs_for_period` in
technical_analysis.py instead hands them to a Wilder average whose window
is the requested period itself. -/
theorem C1_atr_window_spec (symbol_data spy_data : List Bar) (period : ℕ) :
    RealRelativeStrength.calculate_rrs_for_period symbol_data spy_data period =
      (if symbol_data.length < max (period + 1) 15 ∨ spy_data.length < max (period + 1) 15
        then none
        else rrs_formula symbol_data spy_data period
          (calculate_wilders_average ((calculate_true_range symbol_data).map some) 14)
          (calculate_wilders_average ((calculate_true_range spy_data).map some) 14)) ∧
    TechnicalAnalysis.calculate_rrs_for_period symbol_data spy_data period =
      (if symbol_data.length < period + 1 ∨ spy_data.length < period + 1
        then none
        else rrs_formula symbol_data spy_data period
          (calculate_wilders_average ((calculate_true_range symbol_data).map some) period)
          (calculate_wilders_average ((calculate_true_range spy_data).map some) period)) :=
  ⟨rfl, rfl⟩

/-- Counterexample to claim C4 as stated: the technical_analysis.py
variant computes a non-null per-period result on 12-bar series for P = 1,
although 12 is below the claimed minimum `max(P+1, 15) = 15`. -/
theorem C4_counterexample :
    barsTwelve.length < max (1 + 1) 15 ∧
    TechnicalAnalysis.calculate_rrs_for_period barsTwelve barsTwelve 1 ≠ none := by
  constructor
  · decide
  · have hat : calculate_wilders_average ((calculate_true_range barsTwelve).map some) 1 =
        some 2 := by
      have htr : calculate_true_range barsTwelve = [2, 2, 2, 2, 2, 2, 2, 2, 2, 2, 2, 2] := by
        norm_num [barsTwelve, calculate_true_range, prevCloses, closes, trOf,
          List.range_succ, abs, max_def]
      rw [htr]
      norm_num [calculate_wilders_average, List.filterMap_cons]
    simp only [TechnicalAnalysis.calculate_rrs_for_period, hat, rrs_formula]
    norm_num [barsTwelve]
    exact Option.some_ne_none _

/-- Claim C4 (amended, scoped to the relative-strength module's
`calculate_rrs_for_period`): the result is null whenever either series is
shorter than `max(P+1, 15)`, and whenever either 14-day ATR is null or
zero (so a zero-volatility input yields null, with no division taken);
otherwise it equals
`(subject_move - (benchmark_move / benchmark_ATR) · subject_ATR) / subject_ATR`
rounded to 4 decimal places. -/
theorem C4_rrs_guard_spec (symbol_data spy_data : List Bar) (period : ℕ) :
    (symbol_data.length < max (period + 1) 15 ∨ spy_data.length < max (period + 1) 15 →
      RealRelativeStrength.calculate_rrs_for_period symbol_data spy_data period = none) ∧
    (∀ sa pa,
      calculate_wilders_average ((calculate_true_range symbol_data).map some) 14 = sa →
      calculate_wilders_average ((calculate_true_range spy_data).map some) 14 = pa →
      sa = none ∨ pa = none ∨ sa = some 0 ∨ pa = some 0 →
      RealRelativeStrength.calculate_rrs_for_period symbol_data spy_data period = none) ∧
    (∀ sa pa,
      ¬symbol_data.length < max (period + 1) 15 → ¬spy_data.length < max (period + 1) 15 →
      calculate_wilders_average ((calculate_true_range symbol_data).map some) 14 = some sa →
      calculate_wilders_average ((calculate_true_range spy_data).map some) 14 = some pa →
      sa ≠ 0 → pa ≠ 0 →
      RealRelativeStrength.calculate_rrs_for_period symbol_data spy_data period =
        some (roundTo 4 ((rollingMove symbol_data period -
          (rollingMove spy_data period / pa) * sa) / sa))) := by
  refine ⟨?_, ?_, ?_⟩
  · intro h
    simp only [RealRelativeStrength.calculate_rrs_for_period, if_pos h]
  · intro sa pa hsa hpa hnull
    by_cases hlen : symbol_data.length < max (period + 1) (14 + 1) ∨
        spy_data.length < max (period + 1) (14 + 1)
    · simp only [RealRelativeStrength.calculate_rrs_for_period, if_pos hlen]
    · simp only [RealRelativeStrength.calculate_rrs_for_period, if_neg hlen, hsa, hpa]
      rcases hnull with h | h | h | h <;> subst h
      · rfl
      · cases sa <;> rfl
      · cases pa with
        | none => rfl
        | some q => simp [rrs_formula]
      · cases sa with
        | none => rfl
        | some q => simp [rrs_formula]
  · intro sa pa h1 h2 hsa hpa hs hp
    simp only [RealRelativeStrength.calculate_rrs_for_period,
      if_neg (by tauto : ¬(symbol_data.length < max (period + 1) (14 + 1) ∨
        spy_data.length < max (period + 1) (14 + 1))), hsa, hpa]
    simp only [rrs_formula, if_neg (by tauto : ¬(pa = 0 ∨ sa = 0))]

/-- Witness for C4 (amended) at a zero-volatility input: twenty flat bars
have ATR `some 0`, so the period-8 result is null. -/
theorem C4_rrs_guard_witness :
    RealRelativeStrength.calculate_rrs_for_period flatBars20 flatBars20 8 = none := by
  have hat : calculate_wilders_average ((calculate_true_range flatBars20).map some) 14 =
      some 0 := by
    have htr : calculate_true_range flatBars20 =
        [0, 0, 0, 0, 0, 0, 0, 0, 0, 0, 0, 0, 0, 0, 0, 0, 0, 0, 0, 0] := by
      norm_num [flatBars20, calculate_true_range, prevCloses, closes, trOf,
        List.range_succ, abs, max_def]
    rw [htr]
    norm_num [calculate_wilders_average, List.filterMap_cons]
  exact (C4_rrs_guard_spec flatBars20 flatBars20 8).2.1 (some 0) (some 0) hat hat
    (Or.inr (Or.inr (Or.inl rfl)))

theorem findIdx?_some_bounds {α : Type} (p : α → Bool) :
    ∀ (l : List α) (n i : ℕ), List.findIdx? p l n = some i → n ≤ i ∧ i < l.length + n := by
  intro l
  induction l with
  | nil => intro n i h; simp [List.findIdx?_nil] at h
  | cons x xs ih =>
    intro n i h
    rw [List.findIdx?_cons] at h
    by_cases hx : p x = true
    · rw [if_pos hx] at h
      cases h
      constructor
      · exact le_refl n
      · simp
    · rw [if_neg hx] at h
      have := ih (n + 1) i h
      constructor
      · omega
      · simp only [List.length_cons]
        omega

theorem findIdx?_lt_length {α : Type} {p : α → Bool} {l : List α} {i : ℕ}
    (h : List.findIdx? p l = some i) : i < l.length := by
  have := findIdx?_some_bounds p l 0 i h
  omega

theorem sma_none_iff (prices : List ℚ) (period : ℕ) (hp : 0 < period) :
    calculate_sma prices period = none ↔ prices.length < period := by
  by_cases h : prices.length < period <;> simp [calculate_sma, h]

theorem ema_none_iff (prices : List ℚ) (period : ℕ) (hp : 0 < period) :
    calculate_ema prices period = none ↔ prices.length < period := by
  cases prices with
  | nil =>
    simp [calculate_ema]
    omega
  | cons p rest =>
    by_cases h : (p :: rest).length < period <;> simp [calculate_ema, h]

/-- Twenty-one ascending-date bars (dates 0..20). -/
def symBars21 : List Bar := (List.range 21).map fun i => ⟨i, 10, 11, 9, 10, 0⟩

/-- Twenty ascending-date bars (dates 0..19). -/
def spyBars20 : List Bar := (List.range 20).map fun i => ⟨i, 10, 11, 9, 10, 0⟩

/-- Counterexample to claim C3 as stated: with a 21-bar subject (dates
0..20) and a 20-bar benchmark (dates 0..19), alignment succeeds and the
per-period calculation receives a subject series containing date 20 and a
benchmark series not containing it — the two date sets differ, so they are
not both the intersection. -/
theorem C3_counterexample :
    (RealRelativeStrength.alignRrsInputs symBars21 spyBars20 20).map
        (fun p => ((p.1.map Bar.date).contains 20, (p.2.map Bar.date).contains 20)) =
      some (true, false) := by
  decide

/-- Claim C3 (amended): whenever alignment succeeds, the two series handed
to the per-period calculation have equal length (at least 20), and every
benchmark row's date occurs in both input series; the subject rows are
however only the trailing rows of the subject slice and may carry dates
absent from the benchmark.  Whenever alignment fails (subject slice or
aligned benchmark below 20 rows, among the guards), every
relative-strength field is null rather than computed. -/
theorem C3_alignment_spec (market_data spy_data : List Bar) (target_date : ℕ) :
    (∀ a b, RealRelativeStrength.alignRrsInputs market_data spy_data target_date =
        some (a, b) →
      a.length = b.length ∧ 20 ≤ a.length ∧
      ∀ x ∈ b, x.date ∈ market_data.map Bar.date ∧ x.date ∈ spy_data.map Bar.date) ∧
    (RealRelativeStrength.alignRrsInputs market_data spy_data target_date = none →
      RealRelativeStrength.calculate_real_relative_strength_daily market_data spy_data
        target_date = ⟨none, none, none, none⟩) := by
  constructor
  · intro a b h
    simp only [RealRelativeStrength.alignRrsInputs] at h
    split at h
    · exact absurd h (by simp)
    · split at h
      · exact absurd h (by simp)
      · rename_i hne target_index hfind
        split at h
        · exact absurd h (by simp)
        · split at h
          · exact absurd h (by simp)
          · split at h
            · exact absurd h (by simp)
            · rename_i h20 hspy20 hmin20
              rw [Option.some_inj, Prod.mk.injEq] at h
              obtain ⟨ha, hb⟩ := h
              subst ha hb
              have hminle1 : min (spy_data.filter fun b =>
                  (market_data.take (target_index + 1)).any fun s =>
                    s.date = b.date).length
                  (market_data.take (target_index + 1)).length ≤
                  (market_data.take (target_index + 1)).length := min_le_right _ _
              have hminle2 : min (spy_data.filter fun b =>
                  (market_data.take (target_index + 1)).any fun s =>
                    s.date = b.date).length
                  (market_data.take (target_index + 1)).length ≤
                  (spy_data.filter fun b =>
                    (market_data.take (target_index + 1)).any fun s =>
                      s.date = b.date).length := min_le_left _ _
              refine ⟨?_, ?_, ?_⟩
              · rw [length_lastN _ _ hminle1, length_lastN _ _ hminle2]
              · rw [length_lastN _ _ hminle1]
                omega
              · intro x hx
                have hx1 : x ∈ spy_data.filter fun b =>
                    (market_data.take (target_index + 1)).any fun s =>
                      s.date = b.date := List.drop_subset _ _ hx
                rw [List.mem_filter] at hx1
                obtain ⟨hxspy, hxpred⟩ := hx1
                constructor
                · rw [List.any_eq_true] at hxpred
                  obtain ⟨s, hs, hsx⟩ := hxpred
                  have : s.date = x.date := of_decide_eq_true hsx
                  rw [← this]
                  exact List.mem_map_of_mem Bar.date (List.take_subset _ _ hs)
                · exact List.mem_map_of_mem Bar.date hxspy
  · intro h
    simp only [RealRelativeStrength.calculate_real_relative_strength_daily, h]

/-- Witness for C3 (amended) at concrete inputs: a fully matching 20-bar
pair aligns with at least 20 rows on each side, and empty inputs fail
alignment and yield the all-null dictionary. -/
theorem C3_alignment_witness :
    20 ≤ spyBars20.length ∧
    RealRelativeStrength.calculate_real_relative_strength_daily [] [] 0 =
      ⟨none, none, none, none⟩ :=
  ⟨((C3_alignment_spec spyBars20 spyBars20 19).1 spyBars20 spyBars20 (by decide)).2.1,
   (C3_alignment_spec [] [] 0).2 (by decide)⟩

/-- Fifteen ascending-date bars (dates 0..14). -/
def bars15 : List Bar := (List.range 15).map fun i => ⟨i, 10, 11, 9, 10, 0⟩

/-- Counterexample to claim C2 as stated: with a 15-bar subject whose
target date is its last bar, the slice up to the target has only 15 < 20
observations, yet the orchestrator's `ema_15` field is non-null — not
every indicator field is null. -/
theorem C2_counterexample :
    List.findIdx? (fun b => b.date = 14) bars15 = some 14 ∧
    (14 : ℕ) + 1 < 20 ∧
    (TechnicalAnalysis.calculate_all_indicators bars15 [] 14).ema_15 ≠ none := by
  refine ⟨by decide, by decide, by decide⟩

/-- Claim C2 (amended): if the target date is absent from the subject
series the orchestrator returns the all-null record; if the slice up to the
target has fewer than 20 observations then every relative-strength field
and every simple moving average is null, while each exponential moving
average is null exactly when the slice is shorter than its own period (so
`ema_15` and `ema_8` can be non-null on a short slice). -/
theorem C2_orchestrator_spec (market_data spy_data : List Bar) (target_date : ℕ) :
    (List.findIdx? (fun b => b.date = target_date) market_data = none →
      TechnicalAnalysis.calculate_all_indicators market_data spy_data target_date =
        empty_indicators) ∧
    (∀ i, List.findIdx? (fun b => b.date = target_date) market_data = some i →
      i + 1 < 20 →
      (TechnicalAnalysis.calculate_all_indicators market_data spy_data target_date).rrs_1_day
          = none ∧
      (TechnicalAnalysis.calculate_all_indicators market_data spy_data target_date).rrs_3_day
          = none ∧
      (TechnicalAnalysis.calculate_all_indicators market_data spy_data target_date).rrs_8_day
          = none ∧
      (TechnicalAnalysis.calculate_all_indicators market_data spy_data target_date).rrs_15_day
          = none ∧
      (TechnicalAnalysis.calculate_all_indicators market_data spy_data target_date).sma_200
          = none ∧
      (TechnicalAnalysis.calculate_all_indicators market_data spy_data target_date).sma_100
          = none ∧
      (TechnicalAnalysis.calculate_all_indicators market_data spy_data target_date).sma_50
          = none ∧
      ((TechnicalAnalysis.calculate_all_indicators market_data spy_data target_date).ema_15
          = none ↔ i + 1 < 15) ∧
      ((TechnicalAnalysis.calculate_all_indicators market_data spy_data target_date).ema_8
          = none ↔ i + 1 < 8)) := by
  constructor
  · intro h
    by_cases hm : market_data = []
    · simp [TechnicalAnalysis.calculate_all_indicators, hm]
    · simp [TechnicalAnalysis.calculate_all_indicators, if_neg hm, h]
  · intro i hfind hlt
    have hm : market_data ≠ [] := by
      intro e
      subst e
      simp [List.findIdx?_nil] at hfind
    have hi : i < market_data.length := findIdx?_lt_length hfind
    have hslice : (market_data.take (i + 1)).length = i + 1 := by
      rw [List.length_take]
      omega
    have hclen : (closes (market_data.take (i + 1))).length = i + 1 := by
      simp only [closes, List.length_map]
      exact hslice
    have halign : RealRelativeStrength.alignRrsInputs market_data spy_data target_date
        = none := by
      by_cases hs : spy_data = []
      · simp [RealRelativeStrength.alignRrsInputs, hm, hs]
      · simp only [RealRelativeStrength.alignRrsInputs,
          if_neg (by simp [hm, hs] : ¬(market_data = [] ∨ spy_data = [])), hfind]
        rw [if_pos (by omega : (market_data.take (i + 1)).length < 20)]
    have hrrs : RealRelativeStrength.calculate_real_relative_strength_daily market_data
        spy_data target_date = ⟨none, none, none, none⟩ := by
      simp only [RealRelativeStrength.calculate_real_relative_strength_daily, halign]
    simp only [TechnicalAnalysis.calculate_all_indicators, if_neg hm, hfind, hrrs]
    refine ⟨trivial, trivial, trivial, trivial, ?_, ?_, ?_, ?_, ?_⟩
    · exact (sma_none_iff _ 200 (by norm_num)).mpr (by omega)
    · exact (sma_none_iff _ 100 (by norm_num)).mpr (by omega)
    · exact (sma_none_iff _ 50 (by norm_num)).mpr (by omega)
    · rw [ema_none_iff _ 15 (by norm_num), hclen]
    · rw [ema_none_iff _ 8 (by norm_num), hclen]

/-- Witness for C2 (amended): a one-bar series without the target date
yields the all-null record, and the 15-bar short-slice example has a null
200-day moving average. -/
theorem C2_orchestrator_witness :
    TechnicalAnalysis.calculate_all_indicators [⟨0, 10, 11, 9, 10, 0⟩] [] 5 =
      empty_indicators ∧
    (TechnicalAnalysis.calculate_all_indicators bars15 [] 14).sma_200 = none :=
  ⟨(C2_orchestrator_spec [⟨0, 10, 11, 9, 10, 0⟩] [] 5).1 (by decide),
   ((C2_orchestrator_spec bars15 [] 14).2 14 (by decide) (by decide)).2.2.2.2.1⟩

/-- Two hundred flat bars with ascending dates 0..199 (the 200-day history
`validate_data_sufficiency` demands). -/
def demoBars200 : List Bar := (List.range 200).map fun i => ⟨i, 100, 100, 100, 100, 0⟩

/-- Claim C10: the indicator-update step persists a record only when at
least one computed indicator field is non-null; an all-null computation is
never written, so every row this tool creates has a non-null field. -/
theorem C10_persist_spec (existing : Bool) (market_data spy_data : List Bar)
    (calc_date : ℕ) :
    (∀ r, Tools.update_step existing market_data spy_data calc_date = some r →
      (r.sma_200 ≠ none ∨ r.sma_100 ≠ none ∨ r.sma_50 ≠ none ∨ r.ema_15 ≠ none ∨
       r.ema_8 ≠ none ∨ r.rrs_1_day ≠ none ∨ r.rrs_3_day ≠ none ∨
       r.rrs_8_day ≠ none ∨ r.rrs_15_day ≠ none)) ∧
    (TechnicalAnalysis.calculate_all_indicators market_data spy_data calc_date =
        empty_indicators →
      Tools.update_step existing market_data spy_data calc_date = none) := by
  constructor
  · intro r h
    simp only [Tools.update_step] at h
    split at h
    · exact absurd h (by simp)
    · split at h
      · exact absurd h (by simp)
      · split at h
        · rename_i hpresent
          rw [Option.some_inj] at h
          subst h
          simp only [Tools.any_indicator_present, Bool.or_eq_true, Option.isSome_iff_ne_none]
            at hpresent
          tauto
        · exact absurd h (by simp)
  · intro he
    simp only [Tools.update_step, he]
    split
    · rfl
    · split
      · rfl
      · rw [if_neg (by simp [Tools.any_indicator_present, empty_indicators])]

set_option maxRecDepth 40000 in
/-- Witness for C10: with 200 flat bars and target date 7 (an 8-bar
slice), the step inserts a record, which therefore has a non-null field. -/
theorem C10_persist_witness :
    (TechnicalAnalysis.calculate_all_indicators demoBars200 [] 7).sma_200 ≠ none ∨
    (TechnicalAnalysis.calculate_all_indicators demoBars200 [] 7).sma_100 ≠ none ∨
    (TechnicalAnalysis.calculate_all_indicators demoBars200 [] 7).sma_50 ≠ none ∨
    (TechnicalAnalysis.calculate_all_indicators demoBars200 [] 7).ema_15 ≠ none ∨
    (TechnicalAnalysis.calculate_all_indicators demoBars200 [] 7).ema_8 ≠ none ∨
    (TechnicalAnalysis.calculate_all_indicators demoBars200 [] 7).rrs_1_day ≠ none ∨
    (TechnicalAnalysis.calculate_all_indicators demoBars200 [] 7).rrs_3_day ≠ none ∨
    (TechnicalAnalysis.calculate_all_indicators demoBars200 [] 7).rrs_8_day ≠ none ∨
    (TechnicalAnalysis.calculate_all_indicators demoBars200 [] 7).rrs_15_day ≠ none :=
  (C10_persist_spec false demoBars200 [] 7).1
    (TechnicalAnalysis.calculate_all_indicators demoBars200 [] 7) rfl
